import Mathlib

/-!
Verification of the DistortionSim repository.

The orchestration layer `simulator.py` is embedded directly below
(`Simulator`, the eight `*_experiment` methods, and the driver-level state).
The `solver` module that it calls is not among the available sources; each of
its functions is modelled from the specification document (sections 3, 4
and 7) and carries a doc comment saying so.
-/

/-- A matching: a list of (agent, item) pairs. -/
abbrev Matching := List (Nat × Nat)

/-- Modelled from the spec: the Graph Model of the missing solver module
(spec sections 3 and 4.1): a weighted bipartite instance with integer node
labels, agents being the labels at most `agent_cap` (default: half the node
count), and rational edge weights, edges oriented agent-first. -/
structure Graph where
  nodes : List Nat
  edges : List (Nat × Nat × ℚ)

/-- Default agent cap: half the node count, as in `len(G.nodes)//2`. -/
def Graph.defaultCap (G : Graph) : Nat := G.nodes.length / 2

/-- Resolve an optional `agent_cap` argument against the default. -/
def Graph.capOr (G : Graph) (c : Option Nat) : Nat := c.getD G.defaultCap

/-- Agents of the graph: node labels at most `cap`. -/
def Graph.agents (G : Graph) (cap : Nat) : List Nat :=
  G.nodes.filter (fun a => decide (a ≤ cap))

/-- Items of the graph: node labels above `cap`. -/
def Graph.items (G : Graph) (cap : Nat) : List Nat :=
  G.nodes.filter (fun b => decide (cap < b))

/-- Weight of the agent-item pair (a, b): the weight of the first matching
edge of the graph, or 0 when no such edge exists. -/
def Graph.w (G : Graph) (a b : Nat) : ℚ :=
  ((G.edges.find? (fun e => decide (e.1 = a ∧ e.2.1 = b))).map (fun e => e.2.2)).getD 0

/-- The agent-item pairs carrying the graph's edges. -/
def edgePairs (G : Graph) : List (Nat × Nat) := G.edges.map (fun e => (e.1, e.2.1))

/-- A pair list is a matching when no two entries share an agent or an item
(spec section 3, Matching invariant). -/
def isMatch (M : Matching) : Prop :=
  M.Pairwise (fun p q => p.1 ≠ q.1 ∧ p.2 ≠ q.2)

instance decIsMatch (M : Matching) : Decidable (isMatch M) := by
  unfold isMatch
  infer_instance

/-- Total welfare of a matching: the sum of its pairs' weights. -/
def welfare (G : Graph) (M : Matching) : ℚ := (M.map (fun p => G.w p.1 p.2)).sum

/-- Modelled from the spec: the feasible matchings of G, enumerated as the
sublists of the edge-pair list that satisfy the matching invariant. -/
def allMatchings (G : Graph) : List Matching :=
  (edgePairs G).sublists.filter (fun M => decide (isMatch M))

/-- M is feasible for G: every pair of M is an edge of G and M is a matching. -/
def feasible (G : Graph) (M : Matching) : Prop :=
  (∀ p ∈ M, p ∈ edgePairs G) ∧ isMatch M

instance decFeasible (G : Graph) (M : Matching) : Decidable (feasible G M) := by
  unfold feasible
  infer_instance

/-- Modelled from the spec: OPT(G), the maximum achievable total weight over
all feasible matchings of G (spec section 4.9). -/
def OPT (G : Graph) : ℚ := ((allMatchings G).map (welfare G)).foldr max 0

/-- Modelled from the spec: `calculate_distortion(G, M)` of the missing
solver module (spec sections 4.9 and 7): the ratio OPT(G) / welfare(G, M);
when M is infeasible for G or its welfare is zero the ratio is undefined and
the sentinel `none` is returned instead of a number. -/
def calculate_distortion (G : Graph) (M : Matching) : Option ℚ :=
  if feasible G M ∧ welfare G M ≠ 0 then some (OPT G / welfare G M) else none

/-- The priority enumeration of the solver (spec section 3, Priority Vector). -/
inductive Prio where
  | pareto
  | rank_maximal
  | max_cardinality_rank_maximal
  | fair
deriving DecidableEq

/-- The string form of a priority value, as passed around by `simulator.py`. -/
def prioStr : Prio → String
  | Prio.pareto => "pareto"
  | Prio.rank_maximal => "rank_maximal"
  | Prio.max_cardinality_rank_maximal => "max_cardinality_rank_maximal"
  | Prio.fair => "fair"

/-- Neighbours (adjacent items) of an agent. -/
def nbrs (G : Graph) (a : Nat) : List Nat :=
  (G.edges.filter (fun e => decide (e.1 = a))).map (fun e => e.2.1)

/-- Rank of item b in agent a's descending-weight preference order, ties
broken by item label (spec section 4.1). -/
def rank (G : Graph) (a b : Nat) : Nat :=
  (nbrs G a).countP (fun c => decide (G.w a b < G.w a c ∨ (G.w a c = G.w a b ∧ c < b)))

/-- Utility of agent a under a matching: the weight of its assigned item, 0
when unmatched. -/
def utility (G : Graph) (M : Matching) (a : Nat) : ℚ :=
  ((M.find? (fun p => decide (p.1 = a))).map (fun p => G.w a p.2)).getD 0

/-- M dominates N when every agent is at least as well off and some agent is
strictly better off (per-agent cardinal utility). -/
def dominates (G : Graph) (cap : Nat) (M N : Matching) : Prop :=
  (∀ a ∈ G.agents cap, utility G N a ≤ utility G M a) ∧
    (∃ a ∈ G.agents cap, utility G N a < utility G M a)

instance decDominates (G : Graph) (cap : Nat) (M N : Matching) :
    Decidable (dominates G cap M N) := by
  unfold dominates
  infer_instance

/-- Number of pairs of M whose rank is exactly r. -/
def rankCount (G : Graph) (M : Matching) (r : Nat) : Nat :=
  M.countP (fun p => decide (rank G p.1 p.2 = r))

/-- Positional encoding of the rank signature (count of rank-0 pairs, rank-1
pairs, ...) such that the natural order on the encoding is the lexicographic
order on signatures. -/
def rmEncode (G : Graph) (M : Matching) : Nat :=
  (List.range (G.nodes.length + 1)).foldl
    (fun acc r => acc * ((edgePairs G).length + 2) + rankCount G M r) 0

/-- Encoding that puts cardinality first, then the rank signature. -/
def mcrmEncode (G : Graph) (M : Matching) : Nat :=
  M.length * ((edgePairs G).length + 2) ^ (G.nodes.length + 2) + rmEncode G M

/-- Largest rank received by any matched agent. -/
def maxRankOf (G : Graph) (M : Matching) : Nat :=
  (M.map (fun p => rank G p.1 p.2)).foldr max 0

/-- Modelled from the spec: the deterministic selection rule applied among a
candidate list of matchings (spec section 4.5): `pareto` picks a candidate
dominated by no other candidate, `rank_maximal` lexicographically maximises
the rank signature, `max_cardinality_rank_maximal` first maximises the
matched-pair count, `fair` minimises the maximum rank received. -/
def selectPrio (G : Graph) (cap : Nat) (prio : Prio) (cands : List Matching) : Matching :=
  match prio with
  | Prio.pareto =>
    match cands.filter (fun M => decide (∀ N ∈ cands, ¬ dominates G cap N M)), cands with
    | M :: _, _ => M
    | [], M :: _ => M
    | [], [] => []
  | Prio.rank_maximal => (cands.argmax (fun M => rmEncode G M)).getD []
  | Prio.max_cardinality_rank_maximal => (cands.argmax (fun M => mcrmEncode G M)).getD []
  | Prio.fair => (cands.argmin (fun M => maxRankOf G M)).getD []

/-- The weight-optimal feasible matchings of G. -/
def weightOptimal (G : Graph) : List Matching :=
  (allMatchings G).filter (fun M => decide (welfare G M = OPT G))

/-- Modelled from the spec: `modified_max_matching(G, prio, agent_cap)` of the
missing solver module (spec section 4.5): a maximum-weight matching, selected
among all weight-optimal matchings according to `prio`. -/
def modified_max_matching (G : Graph) (prio : Prio) (agent_cap : Option Nat) : Matching :=
  selectPrio G (G.capOr agent_cap) prio (weightOptimal G)

/-- The feasible matchings whose weight is at least (1 - eps) times OPT(G). -/
def epsCandidates (G : Graph) (eps : ℚ) : List Matching :=
  (allMatchings G).filter (fun M => decide ((1 - eps) * OPT G ≤ welfare G M))

/-- Modelled from the spec: `epsilon_max_matching(G, epsilon, prio, agent_cap)`
of the missing solver module (spec section 4.6): a matching within a
multiplicative factor (1 - epsilon) of the maximum weight, selected among all
such matchings by the same priority rule as `modified_max_matching`. The
Python default for `prio` is modelled as `pareto` at the one call site that
omits it. -/
def epsilon_max_matching (G : Graph) (eps : ℚ) (prio : Prio) (agent_cap : Option Nat) : Matching :=
  selectPrio G (G.capOr agent_cap) prio (epsCandidates G eps)

/-- Modelled from the spec: `twothirds_max_matching(G, prio, agent_cap)` of
the missing solver module (spec section 4.7): the fixed-ratio 2/3 relaxation
of `epsilon_max_matching` (epsilon = 1/3) with the identical priority rule. -/
def twothirds_max_matching (G : Graph) (prio : Prio) (agent_cap : Option Nat) : Matching :=
  epsilon_max_matching G (1 / 3) prio agent_cap

/-- A maximum-weight feasible matching of G (first one found by `argmax`). -/
def maxWeightMatching (G : Graph) : Matching :=
  ((allMatchings G).argmax (welfare G)).getD []

/-- Modelled from the spec: `updated_hybrid_max_matching(G, agent_cap)` of the
missing solver module (spec section 4.8): the first-stage weight-based
matcher of the hybrid mechanism, modelled as a maximum-weight matching. -/
def updated_hybrid_max_matching (G : Graph) (agent_cap : Option Nat) : Matching :=
  maxWeightMatching G

/-- Agent a's preference order on items: b before c when b's weight is larger,
ties broken by the smaller item label (spec section 4.1). -/
def prefRel (G : Graph) (a : Nat) (b c : Nat) : Prop :=
  G.w a c < G.w a b ∨ (G.w a b = G.w a c ∧ b ≤ c)

instance decPrefRel (G : Graph) (a : Nat) : DecidableRel (prefRel G a) := fun b c => by
  unfold prefRel
  infer_instance

/-- Agent a's neighbours sorted into preference order. -/
def prefs (G : Graph) (a : Nat) : List Nat := (nbrs G a).insertionSort (prefRel G a)

/-- Modelled from the spec: `serial_dictatorship(G, agent_cap)` of the missing
solver module (spec section 4.2): agents in increasing label order each claim
their most-preferred still-unmatched neighbouring item; an agent with no
unmatched neighbour stays unmatched. -/
def serial_dictatorship (G : Graph) (agent_cap : Option Nat) : Matching :=
  ((G.agents (G.capOr agent_cap)).insertionSort (fun a b => a ≤ b)).foldl
    (fun M a =>
      match (prefs G a).find? (fun b => M.all (fun p => decide (p.2 ≠ b))) with
      | none => M
      | some b => M ++ [(a, b)]) []

/-- Pointer function of one TTC round: a remaining agent points to its top
remaining item; a remaining item points to the smallest-label remaining agent
adjacent to it. -/
def ttcSucc (G : Graph) (remA remI : List Nat) (x : Nat) : Option Nat :=
  if remA.contains x then (prefs G x).find? (fun b => remI.contains b)
  else ((remA.filter (fun a => (nbrs G a).contains x)).insertionSort (fun a b => a ≤ b)).head?

/-- Walk the pointer structure from a start node until either a dead end
(`Sum.inl`: a node with no pointer, to be dropped) or a revisited node
(`Sum.inr`: the cycle, as the visited suffix starting at that node). -/
def ttcWalk (succ : Nat → Option Nat) : Nat → Nat → List Nat → Sum Nat (List Nat)
  | 0, x, _ => Sum.inl x
  | fuel + 1, x, visited =>
    match succ x with
    | none => Sum.inl x
    | some y =>
      if visited.contains y then Sum.inr (visited.dropWhile (fun z => z != y))
      else ttcWalk succ fuel y (visited ++ [y])

/-- Matched pairs along a cycle: each remaining agent on the cycle takes the
item it points to. -/
def cycleMatches (succ : Nat → Option Nat) (remA : List Nat) (cyc : List Nat) : Matching :=
  cyc.filterMap (fun x => if remA.contains x then (succ x).map (fun b => (x, b)) else none)

/-- Main TTC loop: find a cycle among remaining nodes, match and remove it,
or drop a dead-end node; repeat on the remaining nodes. -/
def ttcLoop (G : Graph) : Nat → List Nat → List Nat → Matching → Matching
  | 0, _, _, acc => acc
  | fuel + 1, remA, remI, acc =>
    match remA with
    | [] => acc
    | a0 :: _ =>
      if remI.isEmpty then acc
      else
        match ttcWalk (ttcSucc G remA remI) (remA.length + remI.length + 1) a0 [a0] with
        | Sum.inl x =>
          ttcLoop G fuel (remA.filter (fun a => a != x)) (remI.filter (fun b => b != x)) acc
        | Sum.inr cyc =>
          ttcLoop G fuel (remA.filter (fun a => !(cyc.contains a)))
            (remI.filter (fun b => !(cyc.contains b)))
            (acc ++ cycleMatches (ttcSucc G remA remI) remA cyc)

/-- Modelled from the spec: `top_trading_cycles(G, agent_cap)` of the missing
solver module (spec section 4.3): iterated cycle detection over the agent and
item pointer structure; all nodes on a found cycle are matched along it and
removed, until no agents or items remain or no further cycle can be formed. -/
def top_trading_cycles (G : Graph) (agent_cap : Option Nat) : Matching :=
  ttcLoop G (G.nodes.length + 1)
    ((G.agents (G.capOr agent_cap)).insertionSort (fun a b => a ≤ b))
    ((G.items (G.capOr agent_cap)).insertionSort (fun a b => a ≤ b)) []

/-- Modelled from the spec: `reassign_labels(G, M)` of the missing solver
module (spec section 3, Relabeled Graph): the reduced residual graph on the
agents and items left unmatched by M, re-indexed to consecutive labels
1..k (agents) and k+1..k+m (items), keeping the original weights. -/
def reassign_labels (G : Graph) (M : Matching) : Graph :=
  let cap := G.defaultCap
  let uA := ((G.agents cap).filter (fun a => M.all (fun p => decide (p.1 ≠ a)))).insertionSort
    (fun a b => a ≤ b)
  let uI := ((G.items cap).filter (fun b => M.all (fun p => decide (p.2 ≠ b)))).insertionSort
    (fun a b => a ≤ b)
  { nodes := List.range' 1 (uA.length + uI.length),
    edges := G.edges.filterMap (fun e =>
      if uA.contains e.1 && uI.contains e.2.1 then
        some (uA.indexOf e.1 + 1, uA.length + uI.indexOf e.2.1 + 1, e.2.2)
      else none) }

/-- Modelled from the spec: the weight-coarsening step of
`partial_max_matching` (spec section 4.4): each weight is replaced by the
representative of its equal-width bucket (1-based bucket index) over the
weight range split into m buckets. -/
def bucketed (G : Graph) (m : Nat) : Graph :=
  match G.edges.map (fun e => e.2.2) with
  | [] => G
  | w0 :: ws =>
    let lo := ws.foldr min w0
    let hi := ws.foldr max w0
    let width := (hi - lo) / (m : ℚ)
    { nodes := G.nodes,
      edges := G.edges.map (fun e =>
        (e.1, e.2.1,
          if width = 0 then (1 : ℚ)
          else ((min (m - 1) (Int.toNat ⌊(e.2.2 - lo) / width⌋) : Nat) + 1 : ℚ))) }

/-- Modelled from the spec: `partial_max_matching(G, m, agent_cap)` of the
missing solver module (spec section 4.4): a maximum-weight matching of the
bucketed graph. -/
def partial_max_matching (G : Graph) (m : Nat) (agent_cap : Option Nat) : Matching :=
  maxWeightMatching (bucketed G m)

/-- The Pareto-optimal feasible matchings of G: those dominated by no other
feasible matching. -/
def paretoMatchings (G : Graph) : List Matching :=
  (allMatchings G).filter
    (fun M => decide (∀ N ∈ allMatchings G, ¬ dominates G G.defaultCap N M))

/-- Modelled from the spec: the class of feasible matchings satisfying a
priority criterion, used by `calculate_modified_distortion` (spec section
4.9): the Pareto-optimal matchings for `pareto`, and the matchings achieving
the optimal score of the corresponding criterion otherwise. -/
def prioClass (G : Graph) (prio : Prio) : List Matching :=
  match prio with
  | Prio.pareto => paretoMatchings G
  | Prio.rank_maximal =>
    match (allMatchings G).argmax (fun M => rmEncode G M) with
    | none => []
    | some B => (allMatchings G).filter (fun M => decide (rmEncode G M = rmEncode G B))
  | Prio.max_cardinality_rank_maximal =>
    match (allMatchings G).argmax (fun M => mcrmEncode G M) with
    | none => []
    | some B => (allMatchings G).filter (fun M => decide (mcrmEncode G M = mcrmEncode G B))
  | Prio.fair =>
    match (allMatchings G).argmin (fun M => maxRankOf G M) with
    | none => []
    | some B => (allMatchings G).filter (fun M => decide (maxRankOf G M = maxRankOf G B))

/-- The best welfare achievable within the priority class. -/
def OPTprio (G : Graph) (prio : Prio) : ℚ :=
  ((prioClass G prio).map (welfare G)).foldr max 0

/-- Modelled from the spec: `calculate_modified_distortion(G, M, prio)` of the
missing solver module (spec sections 4.9 and 7): as `calculate_distortion`
but with the optimum recomputed over the matchings satisfying the `prio`
criterion; undefined ratios yield the sentinel `none`. -/
def calculate_modified_distortion (G : Graph) (M : Matching) (prio : Prio) : Option ℚ :=
  if feasible G M ∧ welfare G M ≠ 0 then some (OPTprio G prio / welfare G M) else none

/-- The result log of `Simulator.__init__`: the six per-column lists of
`self.history` (`simulator.py` line 34). The `size` column may record `None`
and the `distortion` column records the distortion functions' results. -/
structure History where
  id : List Nat
  val_index : List Int
  size : List (Option Nat)
  valuation : List String
  algo : List String
  distortion : List (Option ℚ)

/-- The `Simulator` object of `simulator.py`: an instance generator (opaque
here, of an arbitrary type), the result log and the id counter. -/
structure Simulator (α : Type) where
  instance_generator : α
  history : History
  id : Nat

/-- `Simulator.__init__`: empty history columns and id counter 1. -/
def initSimulator {α : Type} (ig : α) : Simulator α :=
  { instance_generator := ig,
    history := { id := [], val_index := [], size := [], valuation := [], algo := [],
                 distortion := [] },
    id := 1 }

/-- `Simulator.serial_dictatorship_experiment` (`simulator.py` lines 37-59). -/
def serial_dictatorship_experiment {α : Type} (s : Simulator α) (val_index : Int)
    (val_type : String) (G : Graph) (size : Option Nat) (agent_cap : Option Nat) :
    Simulator α :=
  let sz := size.getD (G.nodes.length / 2)
  let M := serial_dictatorship G agent_cap
  { s with
    history := { id := s.history.id ++ [s.id],
                 val_index := s.history.val_index ++ [val_index],
                 size := s.history.size ++ [some sz],
                 valuation := s.history.valuation ++ [val_type],
                 algo := s.history.algo ++ ["serial_dictatorship"],
                 distortion := s.history.distortion ++
                   [calculate_modified_distortion G M Prio.pareto] },
    id := s.id + 1 }

/-- `Simulator.partial_max_matching_experiment` (`simulator.py` lines 61-86). -/
def partial_max_matching_experiment {α : Type} (s : Simulator α) (val_index : Int)
    (val_type : String) (G : Graph) (m : Nat) (size : Option Nat) (agent_cap : Option Nat) :
    Simulator α :=
  let sz := size.getD (G.nodes.length / 2)
  let M := partial_max_matching G m agent_cap
  let H := reassign_labels G M
  let M_0 := top_trading_cycles H none
  { s with
    history := { id := s.history.id ++ [s.id],
                 val_index := s.history.val_index ++ [val_index],
                 size := s.history.size ++ [some sz],
                 valuation := s.history.valuation ++ [val_type],
                 algo := s.history.algo ++ ["partial_max_matching" ++ "_" ++ toString m],
                 distortion := s.history.distortion ++ [calculate_distortion G M_0] },
    id := s.id + 1 }

/-- `Simulator.modified_max_matching_experiment` (`simulator.py` lines 88-110). -/
def modified_max_matching_experiment {α : Type} (s : Simulator α) (val_index : Int)
    (val_type : String) (G : Graph) (prio : Prio) (size : Option Nat)
    (agent_cap : Option Nat) : Simulator α :=
  let sz := size.getD (G.nodes.length / 2)
  let M_0 := modified_max_matching G prio agent_cap
  { s with
    history := { id := s.history.id ++ [s.id],
                 val_index := s.history.val_index ++ [val_index],
                 size := s.history.size ++ [some sz],
                 valuation := s.history.valuation ++ [val_type],
                 algo := s.history.algo ++ ["modified_max_matching"],
                 distortion := s.history.distortion ++
                   [calculate_modified_distortion G M_0 prio] },
    id := s.id + 1 }

/-- `Simulator.top_trading_cycles_experiment` (`simulator.py` lines 112-133). -/
def top_trading_cycles_experiment {α : Type} (s : Simulator α) (val_index : Int)
    (val_type : String) (G : Graph) (size : Option Nat) (agent_cap : Option Nat) :
    Simulator α :=
  let sz := size.getD (G.nodes.length / 2)
  let M := top_trading_cycles G agent_cap
  { s with
    history := { id := s.history.id ++ [s.id],
                 val_index := s.history.val_index ++ [val_index],
                 size := s.history.size ++ [some sz],
                 valuation := s.history.valuation ++ [val_type],
                 algo := s.history.algo ++ ["ttc_matching"],
                 distortion := s.history.distortion ++
                   [calculate_modified_distortion G M Prio.pareto] },
    id := s.id + 1 }

/-- `Simulator.epsilon_max_matching_experiment` (`simulator.py` lines
135-158); the call to `solver.epsilon_max_matching` omits `prio`, whose
Python-side default is modelled as `pareto`. -/
def epsilon_max_matching_experiment {α : Type} (s : Simulator α) (val_index : Int)
    (val_type : String) (G : Graph) (eps : ℚ) (size : Option Nat)
    (agent_cap : Option Nat) : Simulator α :=
  let sz := size.getD (G.nodes.length / 2)
  let M := epsilon_max_matching G eps Prio.pareto agent_cap
  let H := reassign_labels G M
  let M_0 := top_trading_cycles H none
  { s with
    history := { id := s.history.id ++ [s.id],
                 val_index := s.history.val_index ++ [val_index],
                 size := s.history.size ++ [some sz],
                 valuation := s.history.valuation ++ [val_type],
                 algo := s.history.algo ++ ["epsilon_max_matching" ++ toString eps],
                 distortion := s.history.distortion ++ [calculate_distortion G M_0] },
    id := s.id + 1 }

/-- `Simulator.epsilon_max_matching_prio_experiment` (`simulator.py` lines
160-182). -/
def epsilon_max_matching_prio_experiment {α : Type} (s : Simulator α) (val_index : Int)
    (val_type : String) (G : Graph) (eps : ℚ) (prio : Prio) (size : Option Nat)
    (agent_cap : Option Nat) : Simulator α :=
  let sz := size.getD (G.nodes.length / 2)
  let M := epsilon_max_matching G eps prio agent_cap
  { s with
    history := { id := s.history.id ++ [s.id],
                 val_index := s.history.val_index ++ [val_index],
                 size := s.history.size ++ [some sz],
                 valuation := s.history.valuation ++ [val_type],
                 algo := s.history.algo ++
                   ["epsilon_max_matching " ++ prioStr prio ++ toString eps],
                 distortion := s.history.distortion ++
                   [calculate_modified_distortion G M prio] },
    id := s.id + 1 }

/-- `Simulator.twothirds_max_matching_experiment` (`simulator.py` lines
185-204). Unlike every other experiment method it has no `if size is None`
default: the `size` argument is recorded as given. -/
def twothirds_max_matching_experiment {α : Type} (s : Simulator α) (val_index : Int)
    (val_type : String) (G : Graph) (prio : Prio) (size : Option Nat)
    (agent_cap : Option Nat) : Simulator α :=
  let M := twothirds_max_matching G prio agent_cap
  { s with
    history := { id := s.history.id ++ [s.id],
                 val_index := s.history.val_index ++ [val_index],
                 size := s.history.size ++ [size],
                 valuation := s.history.valuation ++ [val_type],
                 algo := s.history.algo ++ ["twothirds_max_matching " ++ prioStr prio],
                 distortion := s.history.distortion ++
                   [calculate_modified_distortion G M prio] },
    id := s.id + 1 }

/-- `Simulator.updated_hybrid_max_matching_experiment` (`simulator.py` lines
206-230). -/
def updated_hybrid_max_matching_experiment {α : Type} (s : Simulator α) (val_index : Int)
    (val_type : String) (G : Graph) (size : Option Nat) (agent_cap : Option Nat) :
    Simulator α :=
  let sz := size.getD (G.nodes.length / 2)
  let M := updated_hybrid_max_matching G agent_cap
  let H := reassign_labels G M
  let M_0 := top_trading_cycles H none
  { s with
    history := { id := s.history.id ++ [s.id],
                 val_index := s.history.val_index ++ [val_index],
                 size := s.history.size ++ [some sz],
                 valuation := s.history.valuation ++ [val_type],
                 algo := s.history.algo ++ ["updated_hybrid_max_matching"],
                 distortion := s.history.distortion ++
                   [calculate_modified_distortion G M_0 Prio.pareto] },
    id := s.id + 1 }

/-- One invocation of one of the eight experiment methods, with its
arguments. -/
inductive ExperimentCall where
  | serial (vi : Int) (vt : String) (G : Graph) (size cap : Option Nat)
  | partial_mm (vi : Int) (vt : String) (G : Graph) (m : Nat) (size cap : Option Nat)
  | modified_mm (vi : Int) (vt : String) (G : Graph) (prio : Prio) (size cap : Option Nat)
  | ttc (vi : Int) (vt : String) (G : Graph) (size cap : Option Nat)
  | eps_mm (vi : Int) (vt : String) (G : Graph) (eps : ℚ) (size cap : Option Nat)
  | eps_mm_prio (vi : Int) (vt : String) (G : Graph) (eps : ℚ) (prio : Prio)
      (size cap : Option Nat)
  | twothirds_mm (vi : Int) (vt : String) (G : Graph) (prio : Prio) (size cap : Option Nat)
  | hybrid (vi : Int) (vt : String) (G : Graph) (size cap : Option Nat)

/-- Dispatch one experiment call to the corresponding method. -/
def runCall {α : Type} (s : Simulator α) (c : ExperimentCall) : Simulator α :=
  match c with
  | ExperimentCall.serial vi vt G size cap =>
    serial_dictatorship_experiment s vi vt G size cap
  | ExperimentCall.partial_mm vi vt G m size cap =>
    partial_max_matching_experiment s vi vt G m size cap
  | ExperimentCall.modified_mm vi vt G prio size cap =>
    modified_max_matching_experiment s vi vt G prio size cap
  | ExperimentCall.ttc vi vt G size cap =>
    top_trading_cycles_experiment s vi vt G size cap
  | ExperimentCall.eps_mm vi vt G eps size cap =>
    epsilon_max_matching_experiment s vi vt G eps size cap
  | ExperimentCall.eps_mm_prio vi vt G eps prio size cap =>
    epsilon_max_matching_prio_experiment s vi vt G eps prio size cap
  | ExperimentCall.twothirds_mm vi vt G prio size cap =>
    twothirds_max_matching_experiment s vi vt G prio size cap
  | ExperimentCall.hybrid vi vt G size cap =>
    updated_hybrid_max_matching_experiment s vi vt G size cap

/-- The combination of the first-stage hybrid matching with the residual TTC
pass, which is what the claim says gets scored. -/
def combinedHybridResult (G : Graph) (cap : Option Nat) : Matching :=
  updated_hybrid_max_matching G cap ++
    top_trading_cycles (reassign_labels G (updated_hybrid_max_matching G cap)) none

/-- Concrete one-edge graph: one agent (label 1), one item (label 2). -/
def Gex : Graph := { nodes := [1, 2], edges := [(1, 2, 1)] }

/-- Concrete one-edge graph with weight 2, used for the C5 witness. -/
def Gw5 : Graph := { nodes := [1, 2], edges := [(1, 2, 2)] }

/-- Concrete one-edge graph used in the C1 counterexample: the first-stage
matcher already matches everything, so the residual is empty. -/
def Gc1 : Graph := { nodes := [1, 2], edges := [(1, 2, 1)] }

lemma le_foldr_max {α : Type} [LinearOrder α] (b : α) (l : List α) :
    b ≤ l.foldr max b := by
  induction l with
  | nil => exact le_refl b
  | cons x xs ih => exact le_trans ih (le_max_right x _)

lemma le_foldr_max_of_mem {α : Type} [LinearOrder α] {x : α} {l : List α}
    (b : α) (h : x ∈ l) : x ≤ l.foldr max b := by
  induction l with
  | nil => cases h
  | cons y ys ih =>
    rcases List.mem_cons.mp h with h1 | hmem
    · rw [h1]
      exact le_max_left y _
    · exact le_trans (ih hmem) (le_max_right y _)

lemma foldr_max_mem {α : Type} [LinearOrder α] (b : α) (l : List α) :
    l.foldr max b = b ∨ l.foldr max b ∈ l := by
  induction l with
  | nil => exact Or.inl rfl
  | cons y ys ih =>
    rcases max_cases y (ys.foldr max b) with ⟨h1, _⟩ | ⟨h1, _⟩
    · exact Or.inr (by rw [List.foldr_cons, h1]; exact List.mem_cons_self y ys)
    · rcases ih with h | h
      · exact Or.inl (by rw [List.foldr_cons, h1, h])
      · exact Or.inr (by rw [List.foldr_cons, h1]; exact List.mem_cons_of_mem y h)

lemma nil_mem_allMatchings (G : Graph) : ([] : Matching) ∈ allMatchings G :=
  List.mem_filter.mpr
    ⟨List.mem_sublists.mpr (List.nil_sublist _), decide_eq_true_iff.mpr List.Pairwise.nil⟩

lemma OPT_nonneg (G : Graph) : 0 ≤ OPT G := le_foldr_max 0 _

lemma welfare_le_OPT_of_mem {G : Graph} {M : Matching} (h : M ∈ allMatchings G) :
    welfare G M ≤ OPT G :=
  le_foldr_max_of_mem 0 (List.mem_map_of_mem (welfare G) h)

lemma OPT_attained (G : Graph) : ∃ M ∈ allMatchings G, welfare G M = OPT G := by
  rcases foldr_max_mem 0 ((allMatchings G).map (welfare G)) with h | h
  · exact ⟨[], nil_mem_allMatchings G, h.symm⟩
  · rcases List.mem_map.mp h with ⟨M, hM, hw⟩
    exact ⟨M, hM, hw⟩

lemma isMatch_nodup {M : Matching} (h : isMatch M) : M.Nodup :=
  h.imp (fun hpq he => hpq.1 (by rw [he]))

lemma isMatch_of_perm {M N : Matching} (hp : N.Perm M) (h : isMatch M) : isMatch N :=
  (List.Perm.pairwise_iff (fun hxy => ⟨hxy.1.symm, hxy.2.symm⟩) hp).mpr h

lemma welfare_perm {G : Graph} {M N : Matching} (hp : N.Perm M) :
    welfare G N = welfare G M :=
  List.Perm.sum_eq (hp.map (fun p => G.w p.1 p.2))

lemma welfare_le_OPT {G : Graph} {M : Matching} (hf : feasible G M) :
    welfare G M ≤ OPT G := by
  obtain ⟨hsub, hm⟩ := hf
  obtain ⟨N, hperm, hsl⟩ := (isMatch_nodup hm).subperm (fun p hp => hsub p hp)
  have hN : N ∈ allMatchings G :=
    List.mem_filter.mpr
      ⟨List.mem_sublists.mpr hsl, decide_eq_true_iff.mpr (isMatch_of_perm hperm hm)⟩
  calc welfare G M = welfare G N := (welfare_perm hperm).symm
    _ ≤ OPT G := welfare_le_OPT_of_mem hN

lemma argmax_getD_mem {α β : Type} [LinearOrder β] {l : List α} (f : α → β) (d : α)
    (h : l ≠ []) : (l.argmax f).getD d ∈ l := by
  cases hm : l.argmax f with
  | none => exact absurd (List.argmax_eq_none.mp hm) h
  | some m => simpa using List.argmax_mem (Option.mem_def.mpr hm)

lemma argmin_getD_mem {α β : Type} [LinearOrder β] {l : List α} (f : α → β) (d : α)
    (h : l ≠ []) : (l.argmin f).getD d ∈ l := by
  cases hm : l.argmin f with
  | none => exact absurd (List.argmin_eq_none.mp hm) h
  | some m => simpa using List.argmin_mem (Option.mem_def.mpr hm)

lemma selectPrio_mem (G : Graph) (cap : Nat) (prio : Prio) {cands : List Matching}
    (h : cands ≠ []) : selectPrio G cap prio cands ∈ cands := by
  cases prio with
  | pareto =>
    unfold selectPrio
    cases hf : cands.filter (fun M => decide (∀ N ∈ cands, ¬ dominates G cap N M)) with
    | cons M t =>
      have : M ∈ cands.filter (fun M => decide (∀ N ∈ cands, ¬ dominates G cap N M)) := by
        rw [hf]
        exact List.mem_cons_self M t
      exact List.mem_of_mem_filter this
    | nil =>
      cases cands with
      | nil => exact absurd rfl h
      | cons c cs => exact List.mem_cons_self c cs
  | rank_maximal => exact argmax_getD_mem _ _ h
  | max_cardinality_rank_maximal => exact argmax_getD_mem _ _ h
  | fair => exact argmin_getD_mem _ _ h

lemma weightOptimal_ne_nil (G : Graph) : weightOptimal G ≠ [] := by
  obtain ⟨M, hM, hw⟩ := OPT_attained G
  exact List.ne_nil_of_mem (List.mem_filter.mpr ⟨hM, decide_eq_true_iff.mpr hw⟩)

lemma epsCandidates_ne_nil (G : Graph) {eps : ℚ} (h : 0 < eps) :
    epsCandidates G eps ≠ [] := by
  obtain ⟨M, hM, hw⟩ := OPT_attained G
  have hle : (1 - eps) * OPT G ≤ welfare G M := by
    rw [hw]
    calc (1 - eps) * OPT G ≤ 1 * OPT G :=
          mul_le_mul_of_nonneg_right (by linarith) (OPT_nonneg G)
      _ = OPT G := one_mul _
  exact List.ne_nil_of_mem (List.mem_filter.mpr ⟨hM, decide_eq_true_iff.mpr hle⟩)

/-- C2 counterexample: the empty matching is feasible for the one-edge graph
`Gex`, yet `calculate_distortion` returns the undefined-ratio sentinel, not a
value that is at least 1; the claim fails for feasible matchings of zero
welfare. -/
theorem C2_counterexample :
    feasible Gex [] ∧ calculate_distortion Gex [] = none := by
  constructor
  · decide
  · simp [calculate_distortion, welfare]

/-- C2 amended: for every graph and every feasible matching of positive
welfare, the distortion is defined, is at least 1, and equals 1 exactly when
the matching achieves the maximum total weight over all feasible matchings. -/
theorem C2_distortion_ge_one (G : Graph) (M : Matching)
    (hf : feasible G M) (hw : 0 < welfare G M) :
    ∃ q : ℚ, calculate_distortion G M = some q ∧ 1 ≤ q ∧
      (q = 1 ↔ welfare G M = OPT G) := by
  have hle : welfare G M ≤ OPT G := welfare_le_OPT hf
  refine ⟨OPT G / welfare G M, ?_, ?_, ?_⟩
  · simp [calculate_distortion, hf, hw.ne']
  · exact (one_le_div hw).mpr hle
  · rw [div_eq_one_iff_eq hw.ne']
    exact eq_comm

/-- C2 witness: the amended theorem applied to the one-edge graph with its
unique nonempty matching. -/
theorem C2_witness :
    feasible Gex [(1, 2)] ∧ 0 < welfare Gex [(1, 2)] ∧
      ∃ q : ℚ, calculate_distortion Gex [(1, 2)] = some q ∧ 1 ≤ q ∧
        (q = 1 ↔ welfare Gex [(1, 2)] = OPT Gex) :=
  ⟨by decide, by simp [welfare, Gex, Graph.w],
    C2_distortion_ge_one Gex [(1, 2)] (by decide) (by simp [welfare, Gex, Graph.w])⟩

/-- C4: for every graph, every priority value and every agent-cap argument,
`modified_max_matching` returns a matching whose total weight equals OPT(G);
the priority selects only among weight-optimal matchings, never changing the
total weight. -/
theorem C4_modified_max_matching_weight (G : Graph) (prio : Prio) (cap : Option Nat) :
    welfare G (modified_max_matching G prio cap) = OPT G := by
  have hmem := selectPrio_mem G (G.capOr cap) prio (weightOptimal_ne_nil G)
  exact decide_eq_true_iff.mp (List.mem_filter.mp hmem).2

/-- C5: for every graph, epsilon in (0, 1], priority and agent cap, the
weight of `epsilon_max_matching` is at least (1 - epsilon) times OPT(G). -/
theorem C5_epsilon_max_matching_bound (G : Graph) (eps : ℚ) (prio : Prio)
    (cap : Option Nat) (h0 : 0 < eps) (h1 : eps ≤ 1) :
    (1 - eps) * OPT G ≤ welfare G (epsilon_max_matching G eps prio cap) := by
  have hmem := selectPrio_mem G (G.capOr cap) prio (epsCandidates_ne_nil G h0)
  exact decide_eq_true_iff.mp (List.mem_filter.mp hmem).2

/-- C5 witness: the bound applied with epsilon = 1/2 on the one-edge graph. -/
theorem C5_witness :
    0 < (1 / 2 : ℚ) ∧ (1 / 2 : ℚ) ≤ 1 ∧
      (1 - (1 / 2 : ℚ)) * OPT Gw5 ≤
        welfare Gw5 (epsilon_max_matching Gw5 (1 / 2) Prio.pareto none) :=
  ⟨by norm_num, by norm_num,
    C5_epsilon_max_matching_bound Gw5 (1 / 2) Prio.pareto none (by norm_num) (by norm_num)⟩

lemma runCall_shape {α : Type} (s : Simulator α) (c : ExperimentCall) :
    ∃ (r2 : Int) (r3 : Option Nat) (r4 r5 : String) (r6 : Option ℚ),
      runCall s c =
        { instance_generator := s.instance_generator,
          history := { id := s.history.id ++ [s.id],
                       val_index := s.history.val_index ++ [r2],
                       size := s.history.size ++ [r3],
                       valuation := s.history.valuation ++ [r4],
                       algo := s.history.algo ++ [r5],
                       distortion := s.history.distortion ++ [r6] },
          id := s.id + 1 } := by
  cases c <;> exact ⟨_, _, _, _, _, rfl⟩

lemma foldl_runCall_spec {α : Type} (calls : List ExperimentCall) :
    ∀ s : Simulator α,
      (calls.foldl runCall s).history.id = s.history.id ++ List.range' s.id calls.length
      ∧ (calls.foldl runCall s).id = s.id + calls.length
      ∧ (calls.foldl runCall s).history.val_index.length
          = s.history.val_index.length + calls.length
      ∧ (calls.foldl runCall s).history.size.length = s.history.size.length + calls.length
      ∧ (calls.foldl runCall s).history.valuation.length
          = s.history.valuation.length + calls.length
      ∧ (calls.foldl runCall s).history.algo.length = s.history.algo.length + calls.length
      ∧ (calls.foldl runCall s).history.distortion.length
          = s.history.distortion.length + calls.length := by
  induction calls with
  | nil =>
    intro s
    simp
  | cons c cs ih =>
    intro s
    obtain ⟨r2, r3, r4, r5, r6, hc⟩ := runCall_shape s c
    have e1 : (runCall s c).history.id = s.history.id ++ [s.id] := by rw [hc]
    have e2 : (runCall s c).id = s.id + 1 := by rw [hc]
    have e3 : (runCall s c).history.val_index.length = s.history.val_index.length + 1 := by
      rw [hc]
      simp
    have e4 : (runCall s c).history.size.length = s.history.size.length + 1 := by
      rw [hc]
      simp
    have e5 : (runCall s c).history.valuation.length = s.history.valuation.length + 1 := by
      rw [hc]
      simp
    have e6 : (runCall s c).history.algo.length = s.history.algo.length + 1 := by
      rw [hc]
      simp
    have e7 : (runCall s c).history.distortion.length = s.history.distortion.length + 1 := by
      rw [hc]
      simp
    obtain ⟨h1, h2, h3, h4, h5, h6, h7⟩ := ih (runCall s c)
    refine ⟨?_, ?_, ?_, ?_, ?_, ?_, ?_⟩
    · rw [List.foldl_cons, h1, e1, e2, List.length_cons, List.range'_succ, List.append_assoc]
      rfl
    · rw [List.foldl_cons, h2, e2, List.length_cons]
      omega
    · rw [List.foldl_cons, h3, e3, List.length_cons]
      omega
    · rw [List.foldl_cons, h4, e4, List.length_cons]
      omega
    · rw [List.foldl_cons, h5, e5, List.length_cons]
      omega
    · rw [List.foldl_cons, h6, e6, List.length_cons]
      omega
    · rw [List.foldl_cons, h7, e7, List.length_cons]
      omega

/-- C6: every experiment method appends exactly one value to each of the six
history columns and increments the id counter by one; consequently, after any
sequence of experiment calls starting from a fresh Simulator, all six columns
have one entry per call and the id column reads 1, 2, ..., n in order. -/
theorem C6_history_log :
    (∀ (α : Type) (s : Simulator α) (c : ExperimentCall),
        (runCall s c).history.id = s.history.id ++ [s.id]
        ∧ (runCall s c).id = s.id + 1
        ∧ (runCall s c).history.val_index.length = s.history.val_index.length + 1
        ∧ (runCall s c).history.size.length = s.history.size.length + 1
        ∧ (runCall s c).history.valuation.length = s.history.valuation.length + 1
        ∧ (runCall s c).history.algo.length = s.history.algo.length + 1
        ∧ (runCall s c).history.distortion.length = s.history.distortion.length + 1)
    ∧ (∀ (α : Type) (ig : α) (calls : List ExperimentCall),
        (calls.foldl runCall (initSimulator ig)).history.id
          = List.range' 1 calls.length
        ∧ (calls.foldl runCall (initSimulator ig)).id = calls.length + 1
        ∧ (calls.foldl runCall (initSimulator ig)).history.val_index.length = calls.length
        ∧ (calls.foldl runCall (initSimulator ig)).history.size.length = calls.length
        ∧ (calls.foldl runCall (initSimulator ig)).history.valuation.length = calls.length
        ∧ (calls.foldl runCall (initSimulator ig)).history.algo.length = calls.length
        ∧ (calls.foldl runCall (initSimulator ig)).history.distortion.length
          = calls.length) := by
  constructor
  · intro α s c
    obtain ⟨r2, r3, r4, r5, r6, hc⟩ := runCall_shape s c
    refine ⟨by rw [hc], by rw [hc], ?_, ?_, ?_, ?_, ?_⟩ <;> rw [hc] <;> simp
  · intro α ig calls
    obtain ⟨h1, h2, h3, h4, h5, h6, h7⟩ := foldl_runCall_spec calls (initSimulator ig)
    rw [show (initSimulator ig).history.id = [] from rfl, List.nil_append] at h1
    rw [show (initSimulator ig).id = 1 from rfl] at h1 h2
    rw [show (initSimulator ig).history.val_index.length = 0 from rfl, Nat.zero_add] at h3
    rw [show (initSimulator ig).history.size.length = 0 from rfl, Nat.zero_add] at h4
    rw [show (initSimulator ig).history.valuation.length = 0 from rfl, Nat.zero_add] at h5
    rw [show (initSimulator ig).history.algo.length = 0 from rfl, Nat.zero_add] at h6
    rw [show (initSimulator ig).history.distortion.length = 0 from rfl, Nat.zero_add] at h7
    exact ⟨h1, by rw [h2, Nat.add_comm], h3, h4, h5, h6, h7⟩

/-- C7: each experiment call mutates only the history log and the id counter
of the Simulator: the resulting state is the input state with one row
appended to the history and the id counter incremented, and in particular the
instance generator field is unchanged; the graph argument is a pure,
read-only value in this embedding. -/
theorem C7_frame_condition (α : Type) (s : Simulator α) (c : ExperimentCall) :
    (runCall s c).instance_generator = s.instance_generator
    ∧ ∃ (r1 : Nat) (r2 : Int) (r3 : Option Nat) (r4 r5 : String) (r6 : Option ℚ),
        runCall s c =
          { instance_generator := s.instance_generator,
            history := { id := s.history.id ++ [r1],
                         val_index := s.history.val_index ++ [r2],
                         size := s.history.size ++ [r3],
                         valuation := s.history.valuation ++ [r4],
                         algo := s.history.algo ++ [r5],
                         distortion := s.history.distortion ++ [r6] },
            id := s.id + 1 } := by
  obtain ⟨r2, r3, r4, r5, r6, hc⟩ := runCall_shape s c
  exact ⟨by rw [hc], s.id, r2, r3, r4, r5, r6, hc⟩

/-- C8: the algo strings record the algorithm together with its
configuration: `partial_max_matching_` followed by m, the epsilon variants
include epsilon (and the priority for the prio variant), and the two-thirds
variant includes the priority. -/
theorem C8_algo_strings (α : Type) (s : Simulator α) (vi : Int) (vt : String) (G : Graph)
    (m : Nat) (eps : ℚ) (prio : Prio) (size cap : Option Nat) :
    (partial_max_matching_experiment s vi vt G m size cap).history.algo
      = s.history.algo ++ ["partial_max_matching_" ++ toString m]
    ∧ (epsilon_max_matching_experiment s vi vt G eps size cap).history.algo
      = s.history.algo ++ ["epsilon_max_matching" ++ toString eps]
    ∧ (epsilon_max_matching_prio_experiment s vi vt G eps prio size cap).history.algo
      = s.history.algo ++ ["epsilon_max_matching " ++ prioStr prio ++ toString eps]
    ∧ (twothirds_max_matching_experiment s vi vt G prio size cap).history.algo
      = s.history.algo ++ ["twothirds_max_matching " ++ prioStr prio] :=
  ⟨rfl, rfl, rfl, rfl⟩

/-- C9: the scorer is fixed per experiment method: serial dictatorship and
TTC are scored by `calculate_modified_distortion` with priority `pareto`,
while the partial and (non-prio) epsilon experiments are scored by the plain
`calculate_distortion`. -/
theorem C9_scorers (α : Type) (s : Simulator α) (vi : Int) (vt : String) (G : Graph)
    (m : Nat) (eps : ℚ) (size cap : Option Nat) :
    (serial_dictatorship_experiment s vi vt G size cap).history.distortion
      = s.history.distortion ++
        [calculate_modified_distortion G (serial_dictatorship G cap) Prio.pareto]
    ∧ (top_trading_cycles_experiment s vi vt G size cap).history.distortion
      = s.history.distortion ++
        [calculate_modified_distortion G (top_trading_cycles G cap) Prio.pareto]
    ∧ (partial_max_matching_experiment s vi vt G m size cap).history.distortion
      = s.history.distortion ++
        [calculate_distortion G
          (top_trading_cycles (reassign_labels G (partial_max_matching G m cap)) none)]
    ∧ (epsilon_max_matching_experiment s vi vt G eps size cap).history.distortion
      = s.history.distortion ++
        [calculate_distortion G
          (top_trading_cycles (reassign_labels G (epsilon_max_matching G eps Prio.pareto cap))
            none)] :=
  ⟨rfl, rfl, rfl, rfl⟩

/-- C3: both callers of `partial_max_matching` and of the non-prio
`epsilon_max_matching` combine the first-stage matching M with the
`reassign_labels` + `top_trading_cycles` second pass before scoring. -/
theorem C3_second_pass (α : Type) (s : Simulator α) (vi : Int) (vt : String) (G : Graph)
    (m : Nat) (eps : ℚ) (size cap : Option Nat) :
    (∃ M, M = partial_max_matching G m cap
      ∧ (partial_max_matching_experiment s vi vt G m size cap).history.distortion
        = s.history.distortion ++
          [calculate_distortion G (top_trading_cycles (reassign_labels G M) none)])
    ∧ (∃ M, M = epsilon_max_matching G eps Prio.pareto cap
      ∧ (epsilon_max_matching_experiment s vi vt G eps size cap).history.distortion
        = s.history.distortion ++
          [calculate_distortion G (top_trading_cycles (reassign_labels G M) none)]) :=
  ⟨⟨partial_max_matching G m cap, rfl, rfl⟩,
    ⟨epsilon_max_matching G eps Prio.pareto cap, rfl, rfl⟩⟩

/-- C10: `twothirds_max_matching_experiment` records the `size` argument
exactly as given (so `None` when omitted, no default applied), while every
other experiment method records `len(G.nodes)//2` when `size` is omitted. -/
theorem C10_size_recording (α : Type) (s : Simulator α) (vi : Int) (vt : String)
    (G : Graph) (m : Nat) (eps : ℚ) (prio : Prio) (size cap : Option Nat) :
    (twothirds_max_matching_experiment s vi vt G prio size cap).history.size
      = s.history.size ++ [size]
    ∧ (serial_dictatorship_experiment s vi vt G none cap).history.size
      = s.history.size ++ [some (G.nodes.length / 2)]
    ∧ (partial_max_matching_experiment s vi vt G m none cap).history.size
      = s.history.size ++ [some (G.nodes.length / 2)]
    ∧ (modified_max_matching_experiment s vi vt G prio none cap).history.size
      = s.history.size ++ [some (G.nodes.length / 2)]
    ∧ (top_trading_cycles_experiment s vi vt G none cap).history.size
      = s.history.size ++ [some (G.nodes.length / 2)]
    ∧ (epsilon_max_matching_experiment s vi vt G eps none cap).history.size
      = s.history.size ++ [some (G.nodes.length / 2)]
    ∧ (epsilon_max_matching_prio_experiment s vi vt G eps prio none cap).history.size
      = s.history.size ++ [some (G.nodes.length / 2)]
    ∧ (updated_hybrid_max_matching_experiment s vi vt G none cap).history.size
      = s.history.size ++ [some (G.nodes.length / 2)] :=
  ⟨rfl, rfl, rfl, rfl, rfl, rfl, rfl, rfl⟩

/-- C1 amended: the matching whose distortion
`updated_hybrid_max_matching_experiment` records is the result of the
residual TTC pass alone (TTC on `reassign_labels(G, M)` for the first-stage
matching M), not its combination with M, and it is scored via
`calculate_modified_distortion` with priority `pareto`. -/
theorem C1_hybrid_scoring (α : Type) (s : Simulator α) (vi : Int) (vt : String)
    (G : Graph) (size cap : Option Nat) :
    (updated_hybrid_max_matching_experiment s vi vt G size cap).history.distortion
      = s.history.distortion ++
        [calculate_modified_distortion G
          (top_trading_cycles (reassign_labels G (updated_hybrid_max_matching G cap)) none)
          Prio.pareto] :=
  rfl

/-- C1 counterexample: on the one-edge graph the first-stage matcher matches
everything, the residual TTC pass returns the empty matching, and the
recorded distortion is the zero-welfare sentinel; scoring the combined
matching would instead give a defined value, so the recorded distortion is
not that of the combined result. -/
theorem C1_counterexample :
    (updated_hybrid_max_matching_experiment (initSimulator ()) 0 "v" Gc1 none
        none).history.distortion
      ≠ [calculate_modified_distortion Gc1 (combinedHybridResult Gc1 none) Prio.pareto] := by
  have hall : allMatchings Gc1 = [[], [(1, 2)]] := rfl
  have hw1 : welfare Gc1 [(1, 2)] = 1 := by
    simp [welfare, Gc1, Graph.w]
  have h1 : updated_hybrid_max_matching Gc1 none = [(1, 2)] := by
    unfold updated_hybrid_max_matching maxWeightMatching
    rw [hall]
    simp [List.argmax, List.argAux, hw1, welfare, show Gc1.w 1 2 = 1 from rfl]
  have hL : (updated_hybrid_max_matching_experiment (initSimulator ()) 0 "v" Gc1 none
        none).history.distortion
      = [calculate_modified_distortion Gc1 [] Prio.pareto] := by
    show [] ++ [calculate_modified_distortion Gc1
        (top_trading_cycles (reassign_labels Gc1 (updated_hybrid_max_matching Gc1 none))
          none) Prio.pareto]
      = [calculate_modified_distortion Gc1 [] Prio.pareto]
    rw [h1]
    rfl
  have hco : combinedHybridResult Gc1 none = [(1, 2)] := by
    unfold combinedHybridResult
    rw [h1]
    rfl
  have hnone : calculate_modified_distortion Gc1 [] Prio.pareto = none := by
    simp [calculate_modified_distortion, welfare]
  have hsome : calculate_modified_distortion Gc1 [(1, 2)] Prio.pareto ≠ none := by
    have hf : feasible Gc1 [(1, 2)] := by decide
    simp [calculate_modified_distortion, hf, hw1]
  rw [hL, hco, hnone]
  intro heq
  injection heq with hh
  exact hsome hh.symm
